import Mathlib

/-!
Verification of the MPICH collective-selection and communicator-construction
slice: a shallow embedding of `src/mpi/coll/igather/igather.c` and
`src/mpid/ch3/src/ch3u_comm.c`, with theorems about the algorithm-selection
rules, the schedule sentinel behaviour, the VC-table sharing decision, the
hook chains and the fault-tracking registry.
-/

namespace MpichGather

/-- MPI error codes; `0` is `MPI_SUCCESS`. -/
abbrev ErrCode := Int

/-- Constant `MPI_SUCCESS` (mpi.h). -/
def MPI_SUCCESS : ErrCode := 0

/-- Constant `MPI_PROC_NULL`, the sentinel rank (mpi.h). -/
def MPI_PROC_NULL : Int := -1

/-- Constant `MPI_ROOT`, the sentinel rank used on the root side of inter-communicator
collectives (mpi.h). -/
def MPI_ROOT : Int := -3

/-- Arguments of `MPIR_Igather_inter_sched_auto` that its control flow reads:
the root, the datatype sizes delivered by `MPIR_Datatype_get_size_macro`, the
counts, and the communicator's local/remote group sizes.  `MPI_Aint`
quantities are modelled as `Int`. -/
structure InterGatherArgs where
  sendcount : Int
  sendtype_size : Int
  recvcount : Int
  recvtype_size : Int
  root : Int
  local_size : Int
  remote_size : Int
  deriving DecidableEq, Repr

/-- The call `MPIR_Igather_inter_sched_auto` ends up making: return without
emitting (the `root == MPI_PROC_NULL` early exit), call
`MPIR_Igather_inter_sched_short`, or call `MPIR_Igather_inter_sched_long`. -/
inductive IgatherInterCall
  | no_emit
  | call_short
  | call_long
  deriving DecidableEq, Repr

/-- Branch structure of `MPIR_Igather_inter_sched_auto`
(igather.c:150-187), reported as which sub-algorithm is invoked.
`short_msg_size` is the configured `MPIR_CVAR_GATHER_INTER_SHORT_MSG_SIZE`. -/
def igather_inter_sched_auto_call (a : InterGatherArgs) (short_msg_size : Int) :
    IgatherInterCall :=
  if a.root = MPI_PROC_NULL then
    IgatherInterCall.no_emit
  else
    let nbytes : Int :=
      if a.root = MPI_ROOT then a.recvtype_size * a.recvcount * a.remote_size
      else a.sendtype_size * a.sendcount * a.local_size
    if nbytes < short_msg_size then IgatherInterCall.call_short
    else IgatherInterCall.call_long

/-- One elementary step sitting in an `MPIR_Sched_t` schedule, with its
completion flag. -/
structure SchedStep where
  completed : Bool
  deriving DecidableEq, Repr

/-- A schedule is complete when every step in it has completed; the empty
schedule is complete. -/
def sched_is_complete (s : List SchedStep) : Bool :=
  s.all fun st => st.completed

/-- Function `MPIR_Igather_inter_sched_auto` (igather.c:150-187) at the level of the
steps emitted into the schedule.  The emissions of the two sub-algorithms
(`MPIR_Igather_inter_sched_short` / `_long`, defined in other files) are
passed in as `short_result` / `long_result`; the `root == MPI_PROC_NULL`
branch jumps to `fn_exit` without calling either, leaving the schedule empty
and returning `MPI_SUCCESS`. -/
def MPIR_Igather_inter_sched_auto (a : InterGatherArgs) (short_msg_size : Int)
    (short_result long_result : List SchedStep × ErrCode) :
    List SchedStep × ErrCode :=
  if a.root = MPI_PROC_NULL then
    ([], MPI_SUCCESS)
  else
    let nbytes : Int :=
      if a.root = MPI_ROOT then a.recvtype_size * a.recvcount * a.remote_size
      else a.sendtype_size * a.sendcount * a.local_size
    if nbytes < short_msg_size then short_result
    else long_result

/-- The closed set of algorithm containers the igather cost-model dispatch
recognises (`cnt->id` in `MPIR_Igather_allcomm_auto`); any other container id
falls into the `default:` arm.  The `gentran_tree` case carries its tree
arity `k`. -/
inductive CselAlgorithm
  | igather_intra_gentran_tree (k : Int)
  | igather_intra_sched_auto
  | igather_intra_sched_binomial
  | igather_inter_sched_auto
  | igather_inter_sched_long
  | igather_inter_sched_short
  | other_collective_algorithm
  deriving DecidableEq, Repr

/-- Outcome of a function that can hit `MPIR_Assert` / `MPIR_Assertp`: either
a normal return value, or a fatal assertion abort (which never returns). -/
inductive Outcome (α : Type)
  | ok (v : α)
  | fatal_assert
  deriving DecidableEq, Repr

/-- Function `MPIR_Igather_allcomm_auto` (igather.c:68-131).  `csel_search` is the
result of `MPIR_Csel_search` (`none` models a NULL container pointer, checked
by `MPIR_Assert(cnt)`); `alg_err` gives the error code each concrete
algorithm returns when run.  The `default:` arm of the switch is
`MPIR_Assert(0)`. -/
def MPIR_Igather_allcomm_auto (csel_search : Option CselAlgorithm)
    (alg_err : CselAlgorithm → ErrCode) : Outcome ErrCode :=
  match csel_search with
  | none => Outcome.fatal_assert
  | some cnt =>
    match cnt with
    | CselAlgorithm.igather_intra_gentran_tree k =>
        Outcome.ok (alg_err (CselAlgorithm.igather_intra_gentran_tree k))
    | CselAlgorithm.igather_intra_sched_auto =>
        Outcome.ok (alg_err CselAlgorithm.igather_intra_sched_auto)
    | CselAlgorithm.igather_intra_sched_binomial =>
        Outcome.ok (alg_err CselAlgorithm.igather_intra_sched_binomial)
    | CselAlgorithm.igather_inter_sched_auto =>
        Outcome.ok (alg_err CselAlgorithm.igather_inter_sched_auto)
    | CselAlgorithm.igather_inter_sched_long =>
        Outcome.ok (alg_err CselAlgorithm.igather_inter_sched_long)
    | CselAlgorithm.igather_inter_sched_short =>
        Outcome.ok (alg_err CselAlgorithm.igather_inter_sched_short)
    | CselAlgorithm.other_collective_algorithm =>
        Outcome.fatal_assert

/-- Communicator kind: `comm_kind` field, `MPIR_COMM_KIND__INTRACOMM` or
`MPIR_COMM_KIND__INTERCOMM`. -/
inductive CommKind
  | intracomm
  | intercomm
  deriving DecidableEq, Repr

/-- Value of the `MPIR_CVAR_IGATHER_INTRA_ALGORITHM` enum cvar;
`invalid_value` models a value outside the declared enum, which the switch
in `MPIR_Igather_impl` sends to `MPIR_Assert(0)`. -/
inductive IntraCvar
  | gentran_tree
  | sched_binomial
  | sched_auto
  | auto_sel
  | invalid_value
  deriving DecidableEq, Repr

/-- Value of the `MPIR_CVAR_IGATHER_INTER_ALGORITHM` enum cvar. -/
inductive InterCvar
  | sched_long
  | sched_short
  | sched_auto
  | auto_sel
  | invalid_value
  deriving DecidableEq, Repr

/-- The schedule-based igather algorithms that `MPII_SCHED_WRAPPER` can be
asked to run. -/
inductive SchedAlg
  | intra_sched_auto
  | intra_sched_binomial
  | inter_sched_auto
  | inter_sched_long
  | inter_sched_short
  deriving DecidableEq, Repr

/-- Observable actions of `MPIR_Igather` / `MPIR_Igather_impl`, in program
order: clearing the out-parameter (`*request = NULL`), running
`MPII_SCHED_WRAPPER` for a schedule-based algorithm (schedule creation plus
request construction), running the gentran tree algorithm directly, the
cost-model selection path (`MPIR_Igather_allcomm_auto`), wholesale
delegation to the device (`MPID_Igather`), and the `MPIR_Assert(0)` arm for
an unrecognised cvar value. -/
inductive IgatherEvent
  | set_request_none
  | sched_wrapper (alg : SchedAlg)
  | run_gentran_tree
  | allcomm_auto_selection
  | device_call
  | cvar_assert_fail
  deriving DecidableEq, Repr

/-- Function `MPIR_Igather_impl` (igather.c:206-283) as the sequence of observable
actions it performs: `*request = NULL` first, then the branch on the
communicator kind and the per-kind algorithm cvar. -/
def MPIR_Igather_impl (comm_kind : CommKind)
    (intra_cvar : IntraCvar) (inter_cvar : InterCvar) : List IgatherEvent :=
  IgatherEvent.set_request_none ::
    (match comm_kind with
     | CommKind.intracomm =>
       match intra_cvar with
       | IntraCvar.gentran_tree => [IgatherEvent.run_gentran_tree]
       | IntraCvar.sched_binomial =>
           [IgatherEvent.sched_wrapper SchedAlg.intra_sched_binomial]
       | IntraCvar.sched_auto =>
           [IgatherEvent.sched_wrapper SchedAlg.intra_sched_auto]
       | IntraCvar.auto_sel => [IgatherEvent.allcomm_auto_selection]
       | IntraCvar.invalid_value => [IgatherEvent.cvar_assert_fail]
     | CommKind.intercomm =>
       match inter_cvar with
       | InterCvar.sched_long =>
           [IgatherEvent.sched_wrapper SchedAlg.inter_sched_long]
       | InterCvar.sched_short =>
           [IgatherEvent.sched_wrapper SchedAlg.inter_sched_short]
       | InterCvar.sched_auto =>
           [IgatherEvent.sched_wrapper SchedAlg.inter_sched_auto]
       | InterCvar.auto_sel => [IgatherEvent.allcomm_auto_selection]
       | InterCvar.invalid_value => [IgatherEvent.cvar_assert_fail])

/-- Value of the `MPIR_CVAR_DEVICE_COLLECTIVES` enum cvar. -/
inductive DeviceCollectives
  | none_dc
  | all_dc
  | percoll
  deriving DecidableEq, Repr

/-- Function `MPIR_Igather` (igather.c:285-303): delegate wholesale to
`MPID_Igather` when the device-collectives policy says so, else call
`MPIR_Igather_impl`. -/
def MPIR_Igather (device_collectives : DeviceCollectives)
    (igather_device_collective : Bool) (comm_kind : CommKind)
    (intra_cvar : IntraCvar) (inter_cvar : InterCvar) : List IgatherEvent :=
  if device_collectives = DeviceCollectives.all_dc ∨
     (device_collectives = DeviceCollectives.percoll ∧
      igather_device_collective) then
    [IgatherEvent.device_call]
  else
    MPIR_Igather_impl comm_kind intra_cvar inter_cvar

/-- Events that constitute algorithm-selection or schedule-building work by
this layer (the device delegation hands the whole call to the device before
any such work, and the assert arm does no work). -/
def is_selection_work : IgatherEvent → Bool
  | IgatherEvent.sched_wrapper _ => true
  | IgatherEvent.run_gentran_tree => true
  | IgatherEvent.allcomm_auto_selection => true
  | IgatherEvent.set_request_none => false
  | IgatherEvent.device_call => false
  | IgatherEvent.cvar_assert_fail => false

/-- Scans an event trace: `true` iff no selection/schedule work occurs
before the out-parameter request has been set to `NULL`. -/
def request_nulled_before_work : List IgatherEvent → Bool
  | [] => true
  | e :: rest =>
    if e = IgatherEvent.set_request_none then true
    else if is_selection_work e then false
    else request_nulled_before_work rest

/-- A virtual-connection endpoint handle (an entry of a VC table). -/
abbrev VC := Nat

/-- Enum `MPIR_COMM_MAP_TYPE__DUP` / `MPIR_COMM_MAP_TYPE__IRREGULAR`. -/
inductive CommMapType
  | dup
  | irregular
  deriving DecidableEq, Repr

/-- Enum `MPIR_COMM_MAP_DIR__L2L` / `__L2R` / `__R2L` / `__R2R`. -/
inductive CommMapDir
  | l2l
  | l2r
  | r2l
  | r2r
  deriving DecidableEq, Repr

/-- Mapper descriptor `MPIR_Comm_map_t` together with the fields of its
source communicator that `ch3u_comm.c` reads: kind, the two group sizes, and
(for dup_vcrt) the source VC table the commit code selects for it.
`src_mapping_size` is `src_mapping.length`. -/
structure Mapper where
  type : CommMapType
  dir : CommMapDir
  src_mapping : List Nat
  src_comm_kind : CommKind
  src_local_size : Nat
  src_remote_size : Nat
  src_vcrt : List VC
  deriving DecidableEq, Repr

/-- Result of `dup_vcrt` (ch3u_comm.c:115-163): either the destination table
pointer is set to the source table and `MPIDI_VCRT_Add_ref` is called
(`share` — nothing is allocated), or the complex path runs: a fresh table of
`vcrt_size` entries is created when `vcrt_offset == 0`, and each referenced
source entry is `MPIDI_VCR_Dup`-ed into its offset slot.  `copy` records the
written `(destination index, source entry)` pairs. -/
inductive DupVcrtResult
  | share
  | copy (entries : List (Nat × VC))
  deriving DecidableEq, Repr

/-- The identity-check loop of `dup_vcrt` (ch3u_comm.c:135-138): `flag`
stays 1 iff `src_mapping[i] == i` for every `i < src_mapping_size`. -/
def mapping_is_identity (m : List Nat) : Bool :=
  (List.range m.length).all fun i => m.getD i 0 = i

/-- Function `dup_vcrt` (ch3u_comm.c:115-163).  `src_vcrt` is `src_vcrt->vcr_table`;
the other parameters are as in C. -/
def dup_vcrt (src_vcrt : List VC) (mapper : Mapper)
    (src_comm_size vcrt_size vcrt_offset : Nat) : DupVcrtResult :=
  if mapper.type = CommMapType.dup ∧ src_comm_size = vcrt_size then
    DupVcrtResult.share
  else if mapper.type = CommMapType.irregular ∧
          mapper.src_mapping.length = vcrt_size ∧
          mapping_is_identity mapper.src_mapping then
    DupVcrtResult.share
  else if mapper.type = CommMapType.dup then
    DupVcrtResult.copy
      ((List.range src_comm_size).map fun i =>
        (i + vcrt_offset, src_vcrt.getD i 0))
  else
    DupVcrtResult.copy
      ((List.range mapper.src_mapping.length).map fun i =>
        (i + vcrt_offset, src_vcrt.getD (mapper.src_mapping.getD i 0) 0))

/-- Function `map_size` (ch3u_comm.c:165-173). -/
def map_size (map : Mapper) : Nat :=
  if map.type = CommMapType.irregular then map.src_mapping.length
  else if map.dir = CommMapDir.l2l ∨ map.dir = CommMapDir.l2r then
    map.src_local_size
  else
    map.src_remote_size

/-- One call the commit code makes to `dup_vcrt`: the mapper, the
`src_comm_size` argument passed, and the running `vcrt_size` /
`vcrt_offset`. -/
structure DupVcrtCall where
  mapper : Mapper
  src_comm_size : Nat
  vcrt_size : Nat
  vcrt_offset : Nat
  deriving DecidableEq, Repr

/-- The mappers contributing to the local part of the communicator: the
local pass of `MPIDI_CH3I_Comm_commit_pre_hook` skips `L2R` and `R2R`
mappers (ch3u_comm.c:242-244). -/
def local_pass_mappers (ms : List Mapper) : List Mapper :=
  ms.filter fun m =>
    ¬(m.dir = CommMapDir.l2r ∨ m.dir = CommMapDir.r2r)

/-- The mappers contributing to the remote part: the remote pass skips
`L2L` and `R2L` mappers (ch3u_comm.c:289-291). -/
def remote_pass_mappers (ms : List Mapper) : List Mapper :=
  ms.filter fun m =>
    ¬(m.dir = CommMapDir.l2l ∨ m.dir = CommMapDir.r2l)

/-- The `src_comm_size` argument the local pass hands to `dup_vcrt` for a
mapper: `src_comm->local_size` in every `L2L` branch, `src_comm->remote_size`
in the `R2L` branch (ch3u_comm.c:256-281). -/
def local_pass_src_size (m : Mapper) : Nat :=
  if m.dir = CommMapDir.l2l then m.src_local_size else m.src_remote_size

/-- The `src_comm_size` argument the remote pass hands to `dup_vcrt`:
`local_size` for `L2R`, `remote_size` for `R2R` (ch3u_comm.c:305-317). -/
def remote_pass_src_size (m : Mapper) : Nat :=
  if m.dir = CommMapDir.l2r then m.src_local_size else m.src_remote_size

/-- Folds a mapper list into `dup_vcrt` calls: `vcrt_size` is the total of
`map_size` over the listed mappers (computed by the first walk), and
`vcrt_offset` accumulates by `map_size` across the second walk
(ch3u_comm.c:240-283 and 287-319). -/
def pass_calls (src_size_of : Mapper → Nat) (ms : List Mapper) :
    List DupVcrtCall :=
  let total := (ms.map map_size).sum
  let step := fun (acc : List DupVcrtCall × Nat) (m : Mapper) =>
    (acc.1 ++ [⟨m, src_size_of m, total, acc.2⟩], acc.2 + map_size m)
  (ms.foldl step ([], 0)).1

/-- The `dup_vcrt` calls the local pass of commit makes, in order. -/
def local_pass_calls (ms : List Mapper) : List DupVcrtCall :=
  pass_calls local_pass_src_size (local_pass_mappers ms)

/-- The `dup_vcrt` calls the remote pass of commit makes, in order. -/
def remote_pass_calls (ms : List Mapper) : List DupVcrtCall :=
  pass_calls remote_pass_src_size (remote_pass_mappers ms)

/-- Hook entry `hook_elt` (ch3u_comm.c:39-45): `id` stands for the `hook_fn`/`param`
pair, and `result` is the error code that hook returns when invoked on the
communicator at hand. -/
structure HookElt where
  id : Nat
  result : ErrCode
  deriving DecidableEq, Repr

/-- Modelled from the spec: `MPIDI_CH3U_Comm_register_create_hook` /
`_register_destroy_hook` store the new `hook_elt` with
`LL_PREPEND(head, tail, elt)` and the invocation loops walk the list with
`LL_FOREACH(head, elt)`; both macros live in `utlist.h`, which is not among
the sources here.  Section 4.5 of the spec states that hooks are invoked
"in registration order", so registration is modelled as appending at the
tail of the list that `LL_FOREACH` walks head-to-tail. -/
def register_hook (hooks : List HookElt) (e : HookElt) : List HookElt :=
  hooks ++ [e]

/-- The hook-invocation loop shared by `MPIDI_CH3I_Comm_commit_pre_hook`
(ch3u_comm.c:329-332) and `MPIDI_CH3I_Comm_destroy_hook`
(ch3u_comm.c:357-360): each hook runs in list order; a nonzero return makes
`MPIR_ERR_POP` / `MPIR_ERR_CHECK` jump to `fn_fail`, so later hooks are not
invoked.  Returns the ids invoked (in order) and the resulting error code. -/
def run_hooks : List HookElt → List Nat × ErrCode
  | [] => ([], MPI_SUCCESS)
  | e :: rest =>
    if e.result ≠ MPI_SUCCESS then ([e.id], e.result)
    else
      let r := run_hooks rest
      (e.id :: r.1, r.2)

/-- The per-mapper sanity assertions of `MPIDI_CH3I_Comm_commit_pre_hook`
(ch3u_comm.c:229-236): a mapper with an intra-communicator source must have
direction `L2L` or `L2R`, and a mapper of an intra-communicator under
construction must have direction `L2L` or `R2L`; `MPIR_Assertp` aborts
otherwise. -/
def mapper_sanity (comm_kind : CommKind) (m : Mapper) : Bool :=
  (decide (m.src_comm_kind = CommKind.intracomm →
     m.dir = CommMapDir.l2l ∨ m.dir = CommMapDir.l2r)) &&
  (decide (comm_kind = CommKind.intracomm →
     m.dir = CommMapDir.l2l ∨ m.dir = CommMapDir.r2l))

/-- Successful result of `MPIDI_CH3I_Comm_commit_pre_hook` on a
non-bootstrap communicator: the `dup_vcrt` calls of the two passes, the
create-hook ids invoked, and the returned error code. -/
structure CommitOk where
  local_calls : List DupVcrtCall
  remote_calls : List DupVcrtCall
  hook_ids : List Nat
  err : ErrCode
  deriving DecidableEq, Repr

/-- Function `MPIDI_CH3I_Comm_commit_pre_hook` (ch3u_comm.c:175-339) for a
non-bootstrap communicator: the sanity assertions over the mapper list, the
branch assertion `MPIR_Assert(src_comm->comm_kind == INTERCOMM)` of the
`R2L` arm (line 273), the remote-pass assertions that the communicator is an
inter-communicator (line 303) and that an `R2R` source is an
inter-communicator (line 314); when no assertion fires, the two passes call
`dup_vcrt` and the registered create-hooks run in list order with
`MPIR_ERR_POP` on failure. -/
def MPIDI_CH3I_Comm_commit_pre_hook (comm_kind : CommKind)
    (ms : List Mapper) (create_hooks : List HookElt) : Outcome CommitOk :=
  if ¬ (ms.all (mapper_sanity comm_kind)) then
    Outcome.fatal_assert
  else if ¬ ((local_pass_mappers ms).all fun m =>
      decide (m.dir = CommMapDir.r2l →
        m.src_comm_kind = CommKind.intercomm)) then
    Outcome.fatal_assert
  else if ¬ ((remote_pass_mappers ms).all fun m =>
      decide (comm_kind = CommKind.intercomm) &&
      decide (m.dir = CommMapDir.r2r →
        m.src_comm_kind = CommKind.intercomm)) then
    Outcome.fatal_assert
  else
    let r := run_hooks create_hooks
    Outcome.ok ⟨local_pass_calls ms, remote_pass_calls ms, r.1, r.2⟩

/-- Outcome of `MPIDI_CH3I_Comm_destroy_hook`: the destroy-hook ids invoked
(in order), whether `MPIDI_VCRT_Release` was called on `comm->dev.vcrt` and
on `comm->dev.local_vcrt`, and the returned error code. -/
structure DestroyOutcome where
  invoked : List Nat
  released_vcrt : Bool
  released_local_vcrt : Bool
  err : ErrCode
  deriving DecidableEq, Repr

/-- Function `MPIDI_CH3I_Comm_destroy_hook` (ch3u_comm.c:350-375): run every
registered destroy-hook in list order, jumping to `fn_fail` on the first
failure (skipping the releases); then release the VC table, and for an
inter-communicator also the local VC table.  `vcrt_release_err` /
`local_vcrt_release_err` are the codes the two `MPIDI_VCRT_Release` calls
would return. -/
def MPIDI_CH3I_Comm_destroy_hook (comm_kind : CommKind)
    (destroy_hooks : List HookElt)
    (vcrt_release_err local_vcrt_release_err : ErrCode) : DestroyOutcome :=
  let r := run_hooks destroy_hooks
  if r.2 ≠ MPI_SUCCESS then
    ⟨r.1, false, false, r.2⟩
  else if vcrt_release_err ≠ MPI_SUCCESS then
    ⟨r.1, true, false, vcrt_release_err⟩
  else if comm_kind = CommKind.intercomm then
    ⟨r.1, true, true, local_vcrt_release_err⟩
  else
    ⟨r.1, true, false, MPI_SUCCESS⟩

/-- The fields of a live communicator that the ch3 registry hooks and the
fault-tracking scan read or write: whether it is `MPIR_Process.comm_world`
or `MPIR_Process.icomm_world`, the `dev.anysource_enabled` flag, the
`MPIR_COMM_HINT_EAGER_THRESH` hint, `dev.last_ack_rank`, and the VC of each
rank of its remote group (`MPIDI_Comm_get_vc(comm, i)` for
`i < remote_size`). -/
structure DevComm where
  is_world : Bool
  anysource_enabled : Bool
  eager_thresh_hint : Int
  last_ack_rank : Int
  remote_vcs : List VC
  deriving DecidableEq, Repr

/-- Function `comm_created` (ch3u_comm.c:455-475), the create-hook the registry
installs: enable any-source, default the eager-threshold hint to `-1` when
it is `0` (unset), reset `last_ack_rank` to `-1`, and prepend the
communicator to the live-communicator list (`COMM_ADD`).  Returns the
updated communicator, the updated list, and `MPI_SUCCESS`. -/
def comm_created (comm : DevComm) (comm_list : List DevComm) :
    DevComm × List DevComm × ErrCode :=
  let comm := { comm with anysource_enabled := true }
  let comm :=
    if comm.eager_thresh_hint = 0 then { comm with eager_thresh_hint := -1 }
    else comm
  let comm := { comm with last_ack_rank := -1 }
  (comm, comm :: comm_list, MPI_SUCCESS)

/-- Function `comm_destroyed` (ch3u_comm.c:477-489), the destroy-hook the registry
installs: remove the communicator from the live list (`COMM_DEL`). -/
def comm_destroyed (comm : DevComm) (comm_list : List DevComm) :
    List DevComm × ErrCode :=
  (comm_list.erase comm, MPI_SUCCESS)

/-- A group of (newly failed) processes, as the list of VCs of its members
(`MPIDI_PG_Get_vc` of each `lrank_to_lpid[i].lpid`). -/
structure ProcGroup where
  vcs : List VC
  deriving DecidableEq, Repr

/-- Function `nonempty_intersection` (ch3u_comm.c:493-528): `flag` is true iff a
member of the group is also a member of the communicator; `comm_world` and
`icomm_world` take the fast path and always report true, otherwise every
group member's VC is compared against the VC of every rank of the
communicator's remote group. -/
def nonempty_intersection (comm : DevComm) (group : ProcGroup) : Bool :=
  if comm.is_world then true
  else group.vcs.any fun vc_g => comm.remote_vcs.any fun vc_c => vc_g = vc_c

/-- Function `MPIDI_CH3I_Comm_handle_failed_procs` (ch3u_comm.c:531-567): walk the
live-communicator list once; skip communicators whose any-source flag is
already off; disable any-source on those whose remote group intersects the
failed set.  Returns the updated list. -/
def MPIDI_CH3I_Comm_handle_failed_procs (comm_list : List DevComm)
    (new_failed_procs : ProcGroup) : List DevComm :=
  comm_list.map fun comm =>
    if ¬ comm.anysource_enabled then comm
    else if nonempty_intersection comm new_failed_procs then
      { comm with anysource_enabled := false }
    else comm

/-- The sharing condition exactly as claim C2 states it (following the
spec's words, for comparison against `dup_vcrt`): the mapper is a
whole-group duplication whose source size equals the destination table
size, or an irregular mapping whose index sequence is the identity
permutation over the full source table (so the mapping covers every entry
of `src_vcrt` and maps each index to itself). -/
def claimed_share_condition (src_vcrt : List VC) (mapper : Mapper)
    (src_comm_size vcrt_size : Nat) : Prop :=
  (mapper.type = CommMapType.dup ∧ src_comm_size = vcrt_size) ∨
  (mapper.type = CommMapType.irregular ∧
   mapper.src_mapping.length = src_vcrt.length ∧
   ∀ i, i < mapper.src_mapping.length → mapper.src_mapping.getD i 0 = i)

/-- The sharing condition the code actually implements (the amended claim):
a whole-group duplication whose source size equals the destination table
size, or an irregular mapping whose index sequence has exactly the length
of the destination table and is the identity on its own index range —
whether or not it covers the full source table. -/
def amended_share_condition (mapper : Mapper)
    (src_comm_size vcrt_size : Nat) : Prop :=
  (mapper.type = CommMapType.dup ∧ src_comm_size = vcrt_size) ∨
  (mapper.type = CommMapType.irregular ∧
   mapper.src_mapping.length = vcrt_size ∧
   ∀ i, i < mapper.src_mapping.length → mapper.src_mapping.getD i 0 = i)

/-- The copying half of claim C2, in the spec's words: the result is a copy
whose `j`-th written entry lands in offset slot `j + vcrt_offset` and holds
the `j`-th referenced source entry (source rank `j` for a whole-group
duplication, source rank `src_mapping[j]` for an irregular mapping). -/
def copies_into_offset_slots (src_vcrt : List VC) (mapper : Mapper)
    (src_comm_size vcrt_offset : Nat) : DupVcrtResult → Prop
  | DupVcrtResult.share => False
  | DupVcrtResult.copy entries =>
    entries.length =
      (if mapper.type = CommMapType.dup then src_comm_size
       else mapper.src_mapping.length) ∧
    ∀ j, j < entries.length →
      entries.getD j (0, 0) =
        (j + vcrt_offset,
         src_vcrt.getD
           (if mapper.type = CommMapType.dup then j
            else mapper.src_mapping.getD j 0) 0)

/-- Counterexample mapper for claim C2: an irregular mapper that selects
only rank 0 out of a two-rank source communicator.  Its index sequence
`[0]` is the identity on its own range but does not cover the full source
table `[10, 11]`. -/
def c2_mapper : Mapper where
  type := CommMapType.irregular
  dir := CommMapDir.l2l
  src_mapping := [0]
  src_comm_kind := CommKind.intracomm
  src_local_size := 2
  src_remote_size := 0
  src_vcrt := [10, 11]

/-- The direction/kind consistency invariant of claim C8: a mapper with an
intra-communicator source has direction local-to-local or local-to-remote,
and a mapper with a remote direction has an inter-communicator source. -/
def mapper_dir_kind_ok (m : Mapper) : Prop :=
  (m.src_comm_kind = CommKind.intracomm →
    m.dir = CommMapDir.l2l ∨ m.dir = CommMapDir.l2r) ∧
  ((m.dir = CommMapDir.r2l ∨ m.dir = CommMapDir.r2r) →
    m.src_comm_kind = CommKind.intercomm)

/-- Placeholder communicator used as the default argument of `List.getD`
when stating per-index properties of the live-communicator list. -/
def dummy_comm : DevComm where
  is_world := false
  anysource_enabled := false
  eager_thresh_hint := 0
  last_ack_rank := 0
  remote_vcs := []

/-! Theorems. -/

/-- The identity-check loop computes exactly "the mapping is the identity on
its own index range". -/
theorem mapping_is_identity_iff (m : List Nat) :
    mapping_is_identity m = true ↔
      ∀ i, i < m.length → m.getD i 0 = i := by
  simp [mapping_is_identity, List.all_eq_true, List.mem_range]

/-- C1: for every inter-communicator automatic-selection gather call with a
participating root, the algorithm chosen is short iff `nbytes` is strictly
below the configured short-message threshold, and long otherwise (equality
selects long), where `nbytes` is receive size × receive count × remote
group size when `root == MPI_ROOT` and send size × send count × local group
size on the remote side. -/
theorem C1_inter_auto_threshold (a : InterGatherArgs) (short_msg_size : Int)
    (h : a.root ≠ MPI_PROC_NULL) :
    (igather_inter_sched_auto_call a short_msg_size =
        IgatherInterCall.call_short ↔
      (if a.root = MPI_ROOT then a.recvtype_size * a.recvcount * a.remote_size
       else a.sendtype_size * a.sendcount * a.local_size) < short_msg_size) ∧
    (igather_inter_sched_auto_call a short_msg_size =
        IgatherInterCall.call_long ↔
      short_msg_size ≤
        (if a.root = MPI_ROOT then a.recvtype_size * a.recvcount * a.remote_size
         else a.sendtype_size * a.sendcount * a.local_size)) := by
  unfold igather_inter_sched_auto_call
  rw [if_neg h]
  constructor <;> split <;> simp_all

/-- Witness for C1: a root-side call with `nbytes = 4 * 2 * 3 = 24` below
threshold `100` selects the short algorithm. -/
theorem C1_inter_auto_threshold_witness :
    igather_inter_sched_auto_call ⟨1, 1, 2, 4, MPI_ROOT, 1, 3⟩ 100 =
      IgatherInterCall.call_short := by
  have h := C1_inter_auto_threshold ⟨1, 1, 2, 4, MPI_ROOT, 1, 3⟩ 100 (by decide)
  exact h.1.mpr (by norm_num [MPI_ROOT])

/-- C4: for every inter-communicator gather call given the sentinel root
`MPI_PROC_NULL`, the algorithm emits zero steps, the resulting empty
schedule is already complete, and the call returns `MPI_SUCCESS`. -/
theorem C4_proc_null_empty_schedule (a : InterGatherArgs)
    (short_msg_size : Int) (short_result long_result : List SchedStep × ErrCode)
    (h : a.root = MPI_PROC_NULL) :
    MPIR_Igather_inter_sched_auto a short_msg_size short_result long_result =
      ([], MPI_SUCCESS) ∧
    sched_is_complete
      (MPIR_Igather_inter_sched_auto a short_msg_size
        short_result long_result).1 = true ∧
    igather_inter_sched_auto_call a short_msg_size =
      IgatherInterCall.no_emit := by
  unfold MPIR_Igather_inter_sched_auto igather_inter_sched_auto_call
  simp [h, sched_is_complete]

/-- Witness for C4: with `root = MPI_PROC_NULL` and non-trivial sub-results
available, the emitted schedule is empty and the call succeeds. -/
theorem C4_proc_null_empty_schedule_witness :
    MPIR_Igather_inter_sched_auto ⟨1, 1, 1, 1, MPI_PROC_NULL, 1, 1⟩ 0
        ([⟨false⟩], 5) ([⟨false⟩], 7) = ([], MPI_SUCCESS) :=
  (C4_proc_null_empty_schedule ⟨1, 1, 1, 1, MPI_PROC_NULL, 1, 1⟩ 0
    ([⟨false⟩], 5) ([⟨false⟩], 7) rfl).1

/-- Counterexample to C2 as stated: committing a communicator whose single
mapper is `c2_mapper` (an irregular mapper selecting rank 0 of a two-rank
source) makes exactly one `dup_vcrt` call, and that call shares the source
table — yet the mapper is neither a whole-group duplication nor an identity
permutation over the full source table, so the claim says it must copy. -/
theorem C2_share_condition_counterexample :
    local_pass_calls [c2_mapper] = [⟨c2_mapper, 2, 1, 0⟩] ∧
    dup_vcrt c2_mapper.src_vcrt c2_mapper 2 1 0 = DupVcrtResult.share ∧
    ¬ claimed_share_condition c2_mapper.src_vcrt c2_mapper 2 1 := by
  refine ⟨by decide, by decide, ?_⟩
  intro h
  rcases h with ⟨h1, _⟩ | ⟨_, h2, _⟩
  · exact absurd h1 (by decide)
  · exact absurd h2 (by decide)

/-- C2 (amended): a mapper shares the source table (storing the source
pointer and bumping its reference count, allocating nothing) exactly when
it is a whole-group duplication whose source size equals the destination
table size, or an irregular mapping whose index sequence has the length of
the destination table and is the identity on its own index range (it need
not cover the full source table); in every other case the referenced
entries are duplicated into their offset slots. -/
theorem C2_share_iff_amended (src_vcrt : List VC) (mapper : Mapper)
    (src_comm_size vcrt_size vcrt_offset : Nat) :
    (dup_vcrt src_vcrt mapper src_comm_size vcrt_size vcrt_offset =
        DupVcrtResult.share ↔
      amended_share_condition mapper src_comm_size vcrt_size) ∧
    (¬ amended_share_condition mapper src_comm_size vcrt_size →
      copies_into_offset_slots src_vcrt mapper src_comm_size vcrt_offset
        (dup_vcrt src_vcrt mapper src_comm_size vcrt_size vcrt_offset)) := by
  unfold dup_vcrt amended_share_condition
  split_ifs with h1 h2 h3
  · simp [h1]
  · constructor
    · simp only [true_iff]
      right
      exact ⟨h2.1, h2.2.1, (mapping_is_identity_iff _).mp h2.2.2⟩
    · intro hn
      exact absurd (Or.inr ⟨h2.1, h2.2.1, (mapping_is_identity_iff _).mp h2.2.2⟩) hn
  · constructor
    · simp only [reduceCtorEq, false_iff]
      intro hc
      rcases hc with hc | ⟨hirr, _⟩
      · exact h1 hc
      · rw [hirr] at h3
        simp at h3
    · intro _
      refine ⟨by simp [h3], ?_⟩
      intro j hj
      simp only [List.length_map, List.length_range] at hj
      simp [h3, List.getD_eq_getElem?_getD, List.getElem?_map,
        List.getElem?_range hj]
  · constructor
    · simp only [reduceCtorEq, false_iff]
      intro hc
      rcases hc with hc | ⟨hirr, hlen, hid⟩
      · exact h1 hc
      · cases hm : mapper.type
        · exact h3 hm
        · exact h2 ⟨hm, hlen, (mapping_is_identity_iff _).mpr hid⟩
    · intro _
      refine ⟨by simp [h3], ?_⟩
      intro j hj
      simp only [List.length_map, List.length_range] at hj
      simp [h3, List.getD_eq_getElem?_getD, List.getElem?_map,
        List.getElem?_range hj]

/-- Witness for C2's amended theorem: a whole-group duplication with
`src_comm_size = 2` but `vcrt_size = 3` (a second mapper contributes the
remaining slot) does not share, and its two entries are duplicated into
offset slots 1 and 2. -/
theorem C2_share_iff_amended_witness :
    copies_into_offset_slots [7, 8]
      ⟨CommMapType.dup, CommMapDir.l2l, [], CommKind.intracomm, 2, 0, [7, 8]⟩
      2 1
      (dup_vcrt [7, 8]
        ⟨CommMapType.dup, CommMapDir.l2l, [], CommKind.intracomm, 2, 0, [7, 8]⟩
        2 3 1) := by
  have h := C2_share_iff_amended [7, 8]
    ⟨CommMapType.dup, CommMapDir.l2l, [], CommKind.intracomm, 2, 0, [7, 8]⟩
    2 3 1
  refine h.2 ?_
  intro hc
  rcases hc with ⟨_, hs⟩ | ⟨ht, _⟩
  · exact absurd hs (by decide)
  · exact absurd ht (by decide)

/-- Registering hooks one after another builds the list in registration
order. -/
theorem foldl_register_hook_eq (hs acc : List HookElt) :
    hs.foldl register_hook acc = acc ++ hs := by
  induction hs generalizing acc with
  | nil => simp
  | cons e t ih => simp [register_hook, ih]

/-- When every hook succeeds, the invocation loop runs each hook exactly
once, in list order, and returns `MPI_SUCCESS`. -/
theorem run_hooks_all_success (hs : List HookElt)
    (h : ∀ e ∈ hs, e.result = MPI_SUCCESS) :
    run_hooks hs = (hs.map HookElt.id, MPI_SUCCESS) := by
  induction hs with
  | nil => rfl
  | cons e t ih =>
    have he : e.result = MPI_SUCCESS := h e (by simp)
    have ht := ih fun x hx => h x (by simp [hx])
    simp [run_hooks, he, ht]

/-- The invocation loop stops at the first failing hook: the hooks before
it run (in order), the failing hook runs, the rest are skipped, and the
failing hook's error is returned. -/
theorem run_hooks_first_failure (pre post : List HookElt) (f : HookElt)
    (hpre : ∀ e ∈ pre, e.result = MPI_SUCCESS)
    (hf : f.result ≠ MPI_SUCCESS) :
    run_hooks (pre ++ f :: post) =
      (pre.map HookElt.id ++ [f.id], f.result) := by
  induction pre with
  | nil => simp [run_hooks, hf]
  | cons e t ih =>
    have he : e.result = MPI_SUCCESS := hpre e (by simp)
    have ht := ih fun x hx => hpre x (by simp [hx])
    simp [run_hooks, he, ht]

/-- C3: registering K create-hooks and K destroy-hooks and then committing
and destroying a communicator invokes the create-hooks at commit in
registration order and the destroy-hooks at destroy in registration order,
each exactly once per event (provided the hooks succeed, so no chain
aborts). -/
theorem C3_hooks_in_registration_order
    (create_hooks destroy_hooks : List HookElt) (comm_kind : CommKind)
    (ms : List Mapper) (vcrt_release_err local_vcrt_release_err : ErrCode)
    (hc : ∀ e ∈ create_hooks, e.result = MPI_SUCCESS)
    (hd : ∀ e ∈ destroy_hooks, e.result = MPI_SUCCESS) :
    (∀ r, MPIDI_CH3I_Comm_commit_pre_hook comm_kind ms
        (create_hooks.foldl register_hook []) = Outcome.ok r →
      r.hook_ids = create_hooks.map HookElt.id ∧ r.err = MPI_SUCCESS) ∧
    (MPIDI_CH3I_Comm_destroy_hook comm_kind
        (destroy_hooks.foldl register_hook [])
        vcrt_release_err local_vcrt_release_err).invoked =
      destroy_hooks.map HookElt.id := by
  have hfc : create_hooks.foldl register_hook [] = create_hooks := by
    simpa using foldl_register_hook_eq create_hooks []
  have hfd : destroy_hooks.foldl register_hook [] = destroy_hooks := by
    simpa using foldl_register_hook_eq destroy_hooks []
  constructor
  · intro r hr
    unfold MPIDI_CH3I_Comm_commit_pre_hook at hr
    rw [hfc, run_hooks_all_success create_hooks hc] at hr
    split_ifs at hr
    all_goals simp only [Outcome.ok.injEq, reduceCtorEq] at hr
    subst hr
    exact ⟨rfl, rfl⟩
  · unfold MPIDI_CH3I_Comm_destroy_hook
    rw [hfd, run_hooks_all_success destroy_hooks hd]
    split_ifs <;> rfl

/-- Witness for C3: two destroy-hooks registered as 3 then 4 are invoked in
the order `[3, 4]`. -/
theorem C3_hooks_in_registration_order_witness :
    (MPIDI_CH3I_Comm_destroy_hook CommKind.intracomm
        ([⟨3, 0⟩, ⟨4, 0⟩].foldl register_hook []) 0 0).invoked = [3, 4] := by
  have h := C3_hooks_in_registration_order [⟨1, 0⟩, ⟨2, 0⟩] [⟨3, 0⟩, ⟨4, 0⟩]
    CommKind.intracomm [] 0 0 (by decide) (by decide)
  simpa using h.2

/-- C5: a failing destroy-hook stops the chain — the hooks after it are not
invoked, the VC-table release is skipped, and the failing hook's error is
returned unchanged; when every destroy-hook succeeds, all of them run and
then the table(s) are released (the local table too on an
inter-communicator, when the first release succeeds). -/
theorem C5_destroy_hook_failure (comm_kind : CommKind)
    (pre post : List HookElt) (f : HookElt)
    (vcrt_release_err local_vcrt_release_err : ErrCode)
    (hpre : ∀ e ∈ pre, e.result = MPI_SUCCESS)
    (hf : f.result ≠ MPI_SUCCESS) :
    (MPIDI_CH3I_Comm_destroy_hook comm_kind (pre ++ f :: post)
        vcrt_release_err local_vcrt_release_err =
      ⟨pre.map HookElt.id ++ [f.id], false, false, f.result⟩) ∧
    (∀ hs : List HookElt, (∀ e ∈ hs, e.result = MPI_SUCCESS) →
      (MPIDI_CH3I_Comm_destroy_hook comm_kind hs
          vcrt_release_err local_vcrt_release_err).invoked =
        hs.map HookElt.id ∧
      (MPIDI_CH3I_Comm_destroy_hook comm_kind hs
          vcrt_release_err local_vcrt_release_err).released_vcrt = true ∧
      (vcrt_release_err = MPI_SUCCESS → comm_kind = CommKind.intercomm →
        (MPIDI_CH3I_Comm_destroy_hook comm_kind hs
            vcrt_release_err local_vcrt_release_err).released_local_vcrt =
          true)) := by
  constructor
  · unfold MPIDI_CH3I_Comm_destroy_hook
    rw [run_hooks_first_failure pre post f hpre hf]
    simp [hf]
  · intro hs hok
    unfold MPIDI_CH3I_Comm_destroy_hook
    rw [run_hooks_all_success hs hok]
    by_cases h1 : vcrt_release_err = MPI_SUCCESS <;>
      cases comm_kind <;> simp [h1]

/-- Witness for C5: with destroy-hooks `[1 ok, 2 fails with 7, 3 ok]` on an
inter-communicator, only hooks 1 and 2 run, no table is released, and the
error 7 is returned. -/
theorem C5_destroy_hook_failure_witness :
    MPIDI_CH3I_Comm_destroy_hook CommKind.intercomm
        [⟨1, 0⟩, ⟨2, 7⟩, ⟨3, 0⟩] 0 0 =
      ⟨[1, 2], false, false, 7⟩ := by
  have h := C5_destroy_hook_failure CommKind.intercomm [⟨1, 0⟩] [⟨3, 0⟩]
    ⟨2, 7⟩ 0 0 (by decide) (by decide)
  simpa using h.1

/-- A mapped list read below its length gives the image of the original
entry. -/
theorem getD_map_of_lt (f : DevComm → DevComm) (l : List DevComm) (i : Nat)
    (h : i < l.length) (d : DevComm) :
    (l.map f).getD i d = f (l.getD i d) := by
  induction l generalizing i with
  | nil => simp at h
  | cons a t ih =>
    cases i with
    | zero => rfl
    | succ n => simpa using ih n (by simpa using h)

/-- C6: on notification of a newly-failed process set, the handler scans
each live communicator exactly once (positionally and length-preservingly);
an already-disabled communicator is skipped unchanged; a still-enabled
communicator whose remote group does not intersect the failed set is left
unchanged with its flag still true; a still-enabled communicator whose
remote group intersects the failed set has its flag set to false, with all
other fields untouched; and a world/internal-world communicator is always
treated as intersecting. -/
theorem C6_any_source_disable (comms : List DevComm) (g : ProcGroup)
    (i : Nat) (hi : i < comms.length) :
    (MPIDI_CH3I_Comm_handle_failed_procs comms g).length = comms.length ∧
    ((MPIDI_CH3I_Comm_handle_failed_procs comms g).getD i
        dummy_comm).is_world = (comms.getD i dummy_comm).is_world ∧
    ((MPIDI_CH3I_Comm_handle_failed_procs comms g).getD i
        dummy_comm).eager_thresh_hint =
      (comms.getD i dummy_comm).eager_thresh_hint ∧
    ((MPIDI_CH3I_Comm_handle_failed_procs comms g).getD i
        dummy_comm).last_ack_rank = (comms.getD i dummy_comm).last_ack_rank ∧
    ((MPIDI_CH3I_Comm_handle_failed_procs comms g).getD i
        dummy_comm).remote_vcs = (comms.getD i dummy_comm).remote_vcs ∧
    ((comms.getD i dummy_comm).anysource_enabled = false →
      (MPIDI_CH3I_Comm_handle_failed_procs comms g).getD i dummy_comm =
        comms.getD i dummy_comm) ∧
    ((comms.getD i dummy_comm).anysource_enabled = true →
      nonempty_intersection (comms.getD i dummy_comm) g = false →
      ((MPIDI_CH3I_Comm_handle_failed_procs comms g).getD i
          dummy_comm).anysource_enabled = true) ∧
    ((comms.getD i dummy_comm).anysource_enabled = true →
      nonempty_intersection (comms.getD i dummy_comm) g = true →
      ((MPIDI_CH3I_Comm_handle_failed_procs comms g).getD i
          dummy_comm).anysource_enabled = false) ∧
    ((comms.getD i dummy_comm).anysource_enabled = true →
      (comms.getD i dummy_comm).is_world = true →
      ((MPIDI_CH3I_Comm_handle_failed_procs comms g).getD i
          dummy_comm).anysource_enabled = false) := by
  unfold MPIDI_CH3I_Comm_handle_failed_procs
  rw [List.length_map]
  rw [getD_map_of_lt _ comms i hi dummy_comm]
  refine ⟨rfl, ?_, ?_, ?_, ?_, ?_, ?_, ?_, ?_⟩ <;>
    · intros
      split_ifs <;> simp_all [nonempty_intersection] <;> tauto

/-- Witness for C6: two enabled communicators, the failed group `[2]`
intersects only the second; the first keeps its flag true, the second
loses it. -/
theorem C6_any_source_disable_witness :
    ((MPIDI_CH3I_Comm_handle_failed_procs
        [⟨false, true, 0, 0, [1]⟩, ⟨false, true, 0, 0, [2]⟩] ⟨[2]⟩).getD 0
          dummy_comm).anysource_enabled = true := by
  have h := C6_any_source_disable
    [⟨false, true, 0, 0, [1]⟩, ⟨false, true, 0, 0, [2]⟩] ⟨[2]⟩ 0 (by decide)
  exact h.2.2.2.2.2.2.1 (by decide) (by decide)

/-- C7: a cost-model lookup miss in the auto tier — the selection container
absent, or naming an algorithm outside the closed set of igather variants —
is surfaced as a fatal assertion failure, never as a recoverable error
result returned to the caller. -/
theorem C7_csel_miss_fatal (csel_search : Option CselAlgorithm)
    (alg_err : CselAlgorithm → ErrCode) :
    MPIR_Igather_allcomm_auto csel_search alg_err = Outcome.fatal_assert ↔
      csel_search = none ∨
      csel_search = some CselAlgorithm.other_collective_algorithm := by
  cases csel_search with
  | none => simp [MPIR_Igather_allcomm_auto]
  | some c => cases c <;> simp [MPIR_Igather_allcomm_auto]

/-- A mapper passing the commit sanity assertions satisfies the
direction/kind invariant. -/
theorem mapper_sanity_dir_kind_ok (comm_kind : CommKind) (m : Mapper)
    (h : mapper_sanity comm_kind m = true) : mapper_dir_kind_ok m := by
  unfold mapper_sanity at h
  unfold mapper_dir_kind_ok
  cases hk : m.src_comm_kind <;> cases hd : m.dir <;>
    simp_all [hk, hd]

/-- A mapper violating the direction/kind invariant fails the commit sanity
assertion, whatever the kind of the communicator under construction. -/
theorem dir_kind_violation_fails_sanity (comm_kind : CommKind) (m : Mapper)
    (h : ¬ mapper_dir_kind_ok m) : mapper_sanity comm_kind m = false := by
  unfold mapper_dir_kind_ok at h
  unfold mapper_sanity
  cases hk : m.src_comm_kind <;> cases hd : m.dir <;>
    simp_all [hk, hd]

/-- C8: at communicator commit, every mapper with an intra-communicator
source must have direction local-to-local or local-to-remote, and every
mapper with a remote direction must have an inter-communicator source; a
violation makes the commit abort with a fatal assertion (it never returns a
recoverable error), and conversely a commit that returns normally certifies
the invariant for every mapper. -/
theorem C8_mapper_direction_invariant (comm_kind : CommKind)
    (ms : List Mapper) (create_hooks : List HookElt) :
    ((∃ m ∈ ms, ¬ mapper_dir_kind_ok m) →
      MPIDI_CH3I_Comm_commit_pre_hook comm_kind ms create_hooks =
        Outcome.fatal_assert) ∧
    (∀ r, MPIDI_CH3I_Comm_commit_pre_hook comm_kind ms create_hooks =
        Outcome.ok r → ∀ m ∈ ms, mapper_dir_kind_ok m) := by
  constructor
  · rintro ⟨m, hm, hviol⟩
    unfold MPIDI_CH3I_Comm_commit_pre_hook
    rw [if_pos]
    intro hall
    rw [List.all_eq_true] at hall
    have := hall m hm
    rw [dir_kind_violation_fails_sanity comm_kind m hviol] at this
    exact Bool.false_ne_true this
  · intro r hr m hm
    unfold MPIDI_CH3I_Comm_commit_pre_hook at hr
    split_ifs at hr with h1 h2 h3
    all_goals simp only [Outcome.ok.injEq, reduceCtorEq] at hr
    rw [List.all_eq_true] at h1
    exact mapper_sanity_dir_kind_ok comm_kind m (h1 m hm)

/-- Witness for C8: a mapper with an intra-communicator source and
direction remote-to-remote makes commit abort fatally. -/
theorem C8_mapper_direction_invariant_witness :
    MPIDI_CH3I_Comm_commit_pre_hook CommKind.intercomm
      [⟨CommMapType.dup, CommMapDir.r2r, [], CommKind.intracomm, 1, 1, [5]⟩]
      [] = Outcome.fatal_assert := by
  have h := C8_mapper_direction_invariant CommKind.intercomm
    [⟨CommMapType.dup, CommMapDir.r2r, [], CommKind.intracomm, 1, 1, [5]⟩] []
  refine h.1 ⟨⟨CommMapType.dup, CommMapDir.r2r, [], CommKind.intracomm, 1, 1,
    [5]⟩, List.mem_singleton.mpr rfl, ?_⟩
  intro hok
  unfold mapper_dir_kind_ok at hok
  rcases hok.1 rfl with hdir | hdir <;> exact absurd hdir (by decide)

/-- C9: the non-blocking gather entry point sets the out-parameter request
handle to NULL before any algorithm-selection or schedule-building work: the
first action of `MPIR_Igather_impl` is always clearing the handle, and no
trace of `MPIR_Igather` performs selection or schedule work before the
handle has been cleared. -/
theorem C9_request_cleared_first (device_collectives : DeviceCollectives)
    (igather_device_collective : Bool) (comm_kind : CommKind)
    (intra_cvar : IntraCvar) (inter_cvar : InterCvar) :
    (MPIR_Igather_impl comm_kind intra_cvar inter_cvar).head? =
      some IgatherEvent.set_request_none ∧
    request_nulled_before_work
      (MPIR_Igather device_collectives igather_device_collective comm_kind
        intra_cvar inter_cvar) = true := by
  constructor
  · rfl
  · unfold MPIR_Igather
    split
    · rfl
    · rfl

/-- C10: the registry's create-hook unconditionally enables any-source on
the new communicator and inserts it into the live-communicator list, and it
rewrites the eager-threshold hint to `-1` exactly when the hint is `0`
(unset), leaving any other hint value unchanged; the hook returns
`MPI_SUCCESS`. -/
theorem C10_comm_created_effects (comm : DevComm) (l : List DevComm) :
    (comm_created comm l).1.anysource_enabled = true ∧
    (comm_created comm l).2.1 = (comm_created comm l).1 :: l ∧
    (comm.eager_thresh_hint = 0 →
      (comm_created comm l).1.eager_thresh_hint = -1) ∧
    (comm.eager_thresh_hint ≠ 0 →
      (comm_created comm l).1.eager_thresh_hint =
        comm.eager_thresh_hint) ∧
    (comm_created comm l).2.2 = MPI_SUCCESS := by
  unfold comm_created
  by_cases h : comm.eager_thresh_hint = 0 <;> simp [h]

/-- Witness for C10: a communicator created with a caller-supplied eager
hint of 5 keeps it, has any-source enabled, and heads the live list. -/
theorem C10_comm_created_effects_witness :
    (comm_created ⟨false, false, 5, 0, []⟩ []).1.eager_thresh_hint = 5 :=
  (C10_comm_created_effects ⟨false, false, 5, 0, []⟩ []).2.2.2.1 (by decide)

end MpichGather
